import Mathlib

/-!
Verification development for the GameGuardian repository.

Server side (Express server, `verifyGameValues` and the HTTP handlers):
game-value amounts are modelled as exact rationals (`ℚ`), timestamps as
integer milliseconds, and the MongoDB player document as a `PlayerRecord`
structure.  The handlers are embedded as pure state-transition functions
`PlayerRecord → Response × PlayerRecord` mirroring the database updates the
source performs.

Client side (`GameValue` container, `GuardianShield` orchestrator,
`ToolDetector`): JSON-serializable values are modelled as finite trees whose
object nodes carry an allocation identity (`Nat`), so that the aliasing
behaviour of `deepClone` (a `JSON.parse(JSON.stringify(...))` round trip,
which produces structurally equal objects with fresh identities) is
observable.  The environment probes (tool / process / signature / debugger /
emulator checks, memory scanner, container sweep), which in the source are
random or platform stand-ins, are abstracted as opaque boolean inputs; the
orchestrator's control flow over those booleans is embedded exactly.
-/

namespace GG

/-! ## Server data model (part_000, deploy-config.js) -/

/-- The stored `player.gameData` document.  The fields read by
`verifyGameValues` are modelled explicitly; `others` records the names of any
additional keys so that `Object.keys(gameData).length === 0` is expressible. -/
structure GameData where
  health : Option ℚ
  maxHealth : Option ℚ
  healthRegenRate : Option ℚ
  coins : Option ℚ
  xp : Option ℚ
  others : List String
  deriving DecidableEq, Repr

/-- Embeds `!player.gameData || Object.keys(player.gameData).length === 0`. -/
def GameData.isEmpty (gd : GameData) : Bool :=
  gd.health.isNone && gd.maxHealth.isNone && gd.healthRegenRate.isNone &&
    gd.coins.isNone && gd.xp.isNone && gd.others.isEmpty

/-- The MongoDB player document fields the sync endpoint touches.
`lastSync` is the effective `player.lastSync || player.created` time in
integer milliseconds. -/
structure PlayerRecord where
  gameData : GameData
  lastSync : Int
  tamperingAttempts : Nat
  isBanned : Bool
  banTimestamp : Option Int
  deriving DecidableEq, Repr

/-- The request's `gameValues` body: the keys `verifyGameValues` reads. -/
structure NewValues where
  health : Option ℚ
  coins : Option ℚ
  xp : Option ℚ
  powerups : Option (List String)
  deriving DecidableEq, Repr

/-- Embeds `newValues.powerups?.includes('health')`: optional chaining yields a
falsy `undefined` when `powerups` is absent. -/
def hasHealthPowerup (nv : NewValues) : Bool :=
  match nv.powerups with
  | some l => l.contains "health"
  | none => false

/-- JS `x || d` on a numeric field: `0` is falsy, so a stored `0` falls back
to the default, as does an absent field. -/
def jsNumOr (x : Option ℚ) (d : ℚ) : ℚ :=
  match x with
  | some v => if v = 0 then d else v
  | none => d

/-- Embeds `Math.max(0, (clientTime - lastSyncTime) / 60000)`. -/
def elapsedMinutes (clientTime lastSync : Int) : ℚ :=
  max 0 (((clientTime : ℚ) - (lastSync : ℚ)) / 60000)

/-- Configuration values of `deploy-config.js` used by the verifier and the
sync endpoint (`config.gameRules.*`, `config.protection.maxTamperingAttempts`). -/
structure DeployConfig where
  maxCoinsPerMinute : ℚ
  maxXpPerMinute : ℚ
  maxTamperingAttempts : Nat
  deriving DecidableEq, Repr

/-- The defaults of `deploy-config.js`. -/
def defaultConfig : DeployConfig :=
  { maxCoinsPerMinute := 1000, maxXpPerMinute := 500, maxTamperingAttempts := 3 }

/-- The distinct rejection reasons of `verifyGameValues`; each constructor
stands for one of the source's human-readable reason strings. -/
inductive VerifyReason where
  | invalidTimestamp
  | futureTimestamp
  | healthExceedsMax
  | healthRegenTooFast
  | coinsTooFast
  | xpTooFast
  deriving DecidableEq, Repr

/-- The `{ isValid, reason? }` result returned by `verifyGameValues`. -/
structure VerifyResult where
  isValid : Bool
  reason : Option VerifyReason
  deriving DecidableEq, Repr

/-- The health section of `verifyGameValues`: the max-cap check, then the
regeneration-rate check, both guarded on both values being present. -/
def healthRule (gd : GameData) (nv : NewValues) (tm : ℚ) : Option VerifyResult :=
  match nv.health, gd.health with
  | some h, some h0 =>
    let maxHealth := jsNumOr gd.maxHealth 100
    if maxHealth < h ∧ hasHealthPowerup nv = false then
      some ⟨false, some .healthExceedsMax⟩
    else
      let maxRegen := jsNumOr gd.healthRegenRate 5
      if h0 < h ∧ h0 < maxHealth ∧ h0 + maxRegen * tm < h ∧ hasHealthPowerup nv = false then
        some ⟨false, some .healthRegenTooFast⟩
      else none
  | _, _ => none

/-- The coins section of `verifyGameValues`. -/
def coinsRule (cfg : DeployConfig) (gd : GameData) (nv : NewValues) (tm : ℚ) :
    Option VerifyResult :=
  match nv.coins, gd.coins with
  | some c, some c0 =>
    if c0 + cfg.maxCoinsPerMinute * tm < c then some ⟨false, some .coinsTooFast⟩ else none
  | _, _ => none

/-- The experience section of `verifyGameValues`. -/
def xpRule (cfg : DeployConfig) (gd : GameData) (nv : NewValues) (tm : ℚ) :
    Option VerifyResult :=
  match nv.xp, gd.xp with
  | some x, some x0 =>
    if x0 + cfg.maxXpPerMinute * tm < x then some ⟨false, some .xpTooFast⟩ else none
  | _, _ => none

/-- Embeds `verifyGameValues(player, newValues, clientTimestamp, clientChecksum)`.
`clientTimestamp` is `none` when `new Date(clientTimestamp)` is unparsable
(`NaN`), otherwise the parsed time in milliseconds; `now` is the server time.
The `_clientChecksum` argument is accepted, as in the source, and never read. -/
def verifyGameValues (cfg : DeployConfig) (player : PlayerRecord) (newValues : NewValues)
    (clientTimestamp : Option Int) (now : Int) (_clientChecksum : Option String) :
    VerifyResult :=
  if player.gameData.isEmpty then ⟨true, none⟩ else
  match clientTimestamp with
  | none => ⟨false, some .invalidTimestamp⟩
  | some clientTime =>
    if now + 5 * 60 * 1000 < clientTime then ⟨false, some .futureTimestamp⟩ else
    let tm := elapsedMinutes clientTime player.lastSync
    match healthRule player.gameData newValues tm with
    | some r => r
    | none =>
      match coinsRule cfg player.gameData newValues tm with
      | some r => r
      | none =>
        match xpRule cfg player.gameData newValues tm with
        | some r => r
        | none => ⟨true, none⟩

/-- Embeds `{...player.gameData, ...gameValues}`: request keys override stored keys
where present. -/
def mergeGameData (gd : GameData) (nv : NewValues) : GameData :=
  { gd with
    health := match nv.health with | some h => some h | none => gd.health
    coins := match nv.coins with | some c => some c | none => gd.coins
    xp := match nv.xp with | some x => some x | none => gd.xp }

/-- The responses of `POST /api/sync-game-values` past the input-validation
and player-lookup stage. -/
inductive SyncResponse where
  /-- Response 403 `{error: "Account suspended"}`. -/
  | suspended
  /-- Response 403 `{action: "ban", status: "invalid"}` when the updated counter
  reaches the threshold. -/
  | banInvalid
  /-- Response 200 `{status: "invalid", reason, serverValues}`. -/
  | warnInvalid (reason : Option VerifyReason)
  /-- Response 200 `{status: "valid", verifiedValues}`. -/
  | validOk
  deriving DecidableEq, Repr

/-- The `POST /api/sync-game-values` handler for a registered player:
suspension check, verification, counter escalation and ban, or the
authoritative update, mirrored as a state transition on the player document. -/
def syncGameValues (cfg : DeployConfig) (p : PlayerRecord) (nv : NewValues)
    (ct : Option Int) (now : Int) : SyncResponse × PlayerRecord :=
  if p.isBanned then (.suspended, p)
  else
    let r := verifyGameValues cfg p nv ct now none
    if r.isValid then
      (.validOk, { p with gameData := mergeGameData p.gameData nv, lastSync := now })
    else
      let p1 := { p with tamperingAttempts := p.tamperingAttempts + 1 }
      if cfg.maxTamperingAttempts ≤ p1.tamperingAttempts then
        (.banInvalid, { p1 with isBanned := true, banTimestamp := some now })
      else
        (.warnInvalid r.reason, p1)

/-! ## `POST /api/log-tampering` (part_000) -/

/-- The severities the endpoint accepts verbatim. -/
def severityWhitelist : List String := ["low", "medium", "high", "critical"]

/-- Embeds `['low','medium','high','critical'].includes(severity) ? severity :
'unknown'`; `none` stands for an absent or non-string `severity`. -/
def sanitizeSeverity (sev : Option String) : String :=
  match sev with
  | some s => if severityWhitelist.contains s then s else "unknown"
  | none => "unknown"

/-- The request-body fields of `/api/log-tampering` that determine the
response and the player-counter update. -/
structure TamperBody where
  severity : Option String
  playerId : Option String
  deriving DecidableEq, Repr

/-- Status code and `action` field of the endpoint's response. -/
structure TamperResponse where
  status : Nat
  action : String
  deriving DecidableEq, Repr

/-- The `/api/log-tampering` handler past API-key and body validation:
sanitizes the severity, increments the player's `tamperingAttempts` when a
`playerId` is supplied, and answers 403/ban exactly on sanitized severity
`"critical"`, else 200/warn.  `attempts` is the player's stored counter. -/
def logTampering (body : TamperBody) (attempts : Nat) : TamperResponse × Nat :=
  let sev := sanitizeSeverity body.severity
  let attempts' := if body.playerId.isSome then attempts + 1 else attempts
  if sev = "critical" then (⟨403, "ban"⟩, attempts')
  else (⟨200, "warn"⟩, attempts')

/-! ## Client-side value model (part_001, `GameValue`)

A JSON-serializable value is a finite tree.  Primitive leaves are immutable;
each object node carries an allocation identity, so that reference sharing
versus deep cloning is observable: an in-place mutation of the object with
identity `a` rewrites the fields of every node carrying `a`, in every tree of
the world that shares that node. -/

mutual

/-- A JSON-serializable runtime value: a primitive, or an object node with an
allocation identity and a field list.  Primitives are abstracted to integers;
arrays are a special case of field lists. -/
inductive JTree : Type where
  | prim (v : Int)
  | node (id : Nat) (fields : JFields)
  deriving DecidableEq, Repr

/-- The field list of an object node. -/
inductive JFields : Type where
  | nil
  | cons (key : String) (val : JTree) (rest : JFields)
  deriving DecidableEq, Repr

end

mutual

/-- All allocation identities occurring in a tree. -/
def idsT : JTree → List Nat
  | .prim _ => []
  | .node i fs => i :: idsF fs

/-- All allocation identities occurring in a field list. -/
def idsF : JFields → List Nat
  | .nil => []
  | .cons _ t rest => idsT t ++ idsF rest

end

mutual

/-- A strict upper bound on the identities occurring in a tree. -/
def boundT : JTree → Nat
  | .prim _ => 0
  | .node i fs => max (i + 1) (boundF fs)

/-- A strict upper bound on the identities occurring in a field list. -/
def boundF : JFields → Nat
  | .nil => 0
  | .cons _ t rest => max (boundT t) (boundF rest)

end

mutual

/-- Embeds `deepClone` (`JSON.parse(JSON.stringify(value))`): structurally the same
value with entirely fresh object identities.  Freshness is modelled by
shifting every identity by the container's allocation counter. -/
def shiftIds (d : Nat) : JTree → JTree
  | .prim v => .prim v
  | .node i fs => .node (i + d) (shiftIdsF d fs)

/-- The `shiftIds` traversal of a field list. -/
def shiftIdsF (d : Nat) : JFields → JFields
  | .nil => .nil
  | .cons k t rest => .cons k (shiftIds d t) (shiftIdsF d rest)

end

mutual

/-- Identity erasure: the pure JSON content of a tree, with every object
identity replaced by `0`.  Two trees are "the same JSON value" exactly when
their erasures agree. -/
def eraseIds : JTree → JTree
  | .prim v => .prim v
  | .node _ fs => .node 0 (eraseIdsF fs)

/-- The `eraseIds` traversal of a field list. -/
def eraseIdsF : JFields → JFields
  | .nil => .nil
  | .cons k t rest => .cons k (eraseIds t) (eraseIdsF rest)

end

/-- Overwrite field `k` of a field list with the primitive `v` (appending it
when absent). -/
def setFieldF (k : String) (v : Int) : JFields → JFields
  | .nil => .cons k (.prim v) .nil
  | .cons k2 t rest => if k2 = k then .cons k2 (.prim v) rest
                       else .cons k2 t (setFieldF k v rest)

mutual

/-- An external in-place write: replace the value of field `k` with the
primitive `v` in every object node carrying identity `a` (a debugger or the
caller of `get` writing through a retained reference). -/
def mutateT (a : Nat) (k : String) (v : Int) : JTree → JTree
  | .prim x => .prim x
  | .node i fs =>
    if i = a then .node i (setFieldF k v (mutateF a k v fs))
    else .node i (mutateF a k v fs)

/-- The `mutateT` traversal of a field list. -/
def mutateF (a : Nat) (k : String) (v : Int) : JFields → JFields
  | .nil => .nil
  | .cons k2 t rest => .cons k2 (mutateT a k v t) (mutateF a k v rest)

end

mutual

/-- Embeds `JSON.stringify` of the value; object identities are invisible to
serialization. -/
def stringifyT : JTree → String
  | .prim v => toString v
  | .node _ fs => "\x7b" ++ stringifyF fs ++ "\x7d"

/-- Embeds `JSON.stringify` of the fields of an object, comma-separated. -/
def stringifyF : JFields → String
  | .nil => ""
  | .cons k t .nil => "\"" ++ k ++ "\":" ++ stringifyT t
  | .cons k t (.cons k2 t2 rest) =>
    "\"" ++ k ++ "\":" ++ stringifyT t ++ "," ++ stringifyF (.cons k2 t2 rest)

end

/-- Coercion of an integer into JS 32-bit signed range (the effect of
`x & x` and of `<< 5` on a JS number). -/
def toInt32 (x : Int) : Int := (x + 2 ^ 31) % 2 ^ 32 - 2 ^ 31

/-- One step of `calculateChecksum`'s loop:
`hash = ((hash << 5) - hash) + charCode; hash = hash & hash`. -/
def jsHashStep (h : Int) (c : Nat) : Int := toInt32 (toInt32 (h * 32) - h + c)

/-- Embeds `calculateChecksum`'s string hash, folded over the character codes of the
serialized value; the final `Math.abs(hash)` (whose hexadecimal rendering is
irrelevant here) is the checksum. -/
def jsHash (s : String) : Nat :=
  ((s.toList.map Char.toNat).foldl jsHashStep 0).natAbs

/-- Embeds `calculateChecksum(value)`: hash of `JSON.stringify(value)`. -/
def calculateChecksum (t : JTree) : Nat := jsHash (stringifyT t)

/-- The `GameValue<T>` container state.  `fresh` is the allocation counter
(every identity in use is below it); `verificationCallback` abstracts the
optional constructor callback by the value it returns when invoked (`none`
when no callback was supplied). -/
structure GameValue where
  key : String
  originalValue : JTree
  currentValue : JTree
  checksums : List Nat
  fresh : Nat
  lastAccessTime : Int
  accessCount : Nat
  verificationCallback : Option Bool
  deriving DecidableEq, Repr

/-- Embeds `isChecksumValid()`: the recomputed checksum of the current value is in
the stored list. -/
def GameValue.isChecksumValid (s : GameValue) : Bool :=
  s.checksums.contains (calculateChecksum s.currentValue)

/-- The `GameValue` constructor: deep-clones the initial value into
`originalValue` and `currentValue` and stores its checksum. -/
def GameValue.create (key : String) (initialValue : JTree) (cb : Option Bool)
    (now : Int) : GameValue :=
  let b := boundT initialValue
  { key := key
    originalValue := shiftIds b initialValue
    currentValue := shiftIds (b + b) initialValue
    checksums := [calculateChecksum (shiftIds (b + b) initialValue)]
    fresh := b + b + b
    lastAccessTime := now
    accessCount := 0
    verificationCallback := cb }

/-- Embeds `get()`: bumps the access bookkeeping, checks the checksum (log-only, no
state effect) and returns a deep clone of the current value. -/
def GameValue.get (s : GameValue) (now : Int) : JTree × GameValue :=
  (shiftIds s.fresh s.currentValue,
   { s with
     accessCount := s.accessCount + 1
     lastAccessTime := now
     fresh := s.fresh + boundT s.currentValue })

/-- Embeds `set(newValue)`: bumps the access bookkeeping, checks the checksum
(log-only), stores a deep clone of the new value and replaces the checksum
list with the clone's checksum. -/
def GameValue.set (s : GameValue) (newValue : JTree) (now : Int) : GameValue :=
  let v := shiftIds s.fresh newValue
  { s with
    accessCount := s.accessCount + 1
    lastAccessTime := now
    currentValue := v
    checksums := [calculateChecksum v]
    fresh := s.fresh + boundT newValue }

/-- Embeds `verify()`: the checksum check, and the custom callback only when the
checksum check passed. -/
def GameValue.verify (s : GameValue) : Bool :=
  let ck := s.isChecksumValid
  let custom :=
    if !ck then false
    else match s.verificationCallback with
         | some b => b
         | none => true
  ck && custom

/-! ## `ToolDetector.detectCheatTools` (embedScript.txt) and the
`GuardianShield` cycle (GameGuardianShield.java, TS part)

The five sub-checks of `detectCheatTools` and the two further probes of
`runChecks` are demo stand-ins in the source; they are abstracted as opaque
boolean environment inputs, and the orchestrator's control flow over them is
embedded exactly. -/

/-- The five sequential sub-checks of `detectCheatTools`, in source order. -/
inductive SubCheck where
  | apps
  | processes
  | signatures
  | dbg
  | emu
  deriving DecidableEq, Repr

/-- The detection variants of the specification, grouping the sub-checks. -/
inductive Variant where
  | tool
  | memory
  | debuggerV
  | emulatorV
  deriving DecidableEq, Repr

/-- Which specification variant a sub-check belongs to: installed-app and
process scans are the Tool variant, the memory-signature scan the Memory
variant. -/
def variantOf : SubCheck → Variant
  | .apps => .tool
  | .processes => .tool
  | .signatures => .memory
  | .dbg => .debuggerV
  | .emu => .emulatorV

/-- The outcome of each opaque environment probe consulted by
`detectCheatTools`. -/
structure ToolProbeEnv where
  apps : Bool
  processes : Bool
  signatures : Bool
  dbg : Bool
  emu : Bool
  deriving DecidableEq, Repr

/-- The probe outcome for a given sub-check. -/
def probeResult (env : ToolProbeEnv) : SubCheck → Bool
  | .apps => env.apps
  | .processes => env.processes
  | .signatures => env.signatures
  | .dbg => env.dbg
  | .emu => env.emu

/-- The source order of the sub-checks inside `detectCheatTools`. -/
def subCheckOrder : List SubCheck := [.apps, .processes, .signatures, .dbg, .emu]

/-- Embeds `detectCheatTools()`: runs the five sub-checks in order and returns on
the first positive one.  The second component records which sub-checks were
actually executed. -/
def detectCheatTools (env : ToolProbeEnv) : Bool × List SubCheck :=
  if env.apps then (true, [.apps])
  else if env.processes then (true, [.apps, .processes])
  else if env.signatures then (true, [.apps, .processes, .signatures])
  else if env.dbg then (true, [.apps, .processes, .signatures, .dbg])
  else if env.emu then (true, [.apps, .processes, .signatures, .dbg, .emu])
  else (false, [.apps, .processes, .signatures, .dbg, .emu])

/-- The trace `detectCheatTools` is expected to produce: the source-order
sub-check list cut right after the first positive probe. -/
def specTrace (env : ToolProbeEnv) : List SubCheck :=
  match subCheckOrder.findIdx? (fun c => probeResult env c) with
  | some i => subCheckOrder.take (i + 1)
  | none => subCheckOrder

/-- One event raised through `handleCheatDetected`. -/
structure CheatEvent where
  kind : String
  severity : String
  deriving DecidableEq, Repr

/-- The opaque environment of one `GuardianShield.runChecks()` cycle: the
tool-detector probes, the memory scanner's verdict, and whether any
registered protected value fails `verify()`. -/
structure CycleEnv where
  tools : ToolProbeEnv
  memoryTampered : Bool
  valuesTampered : Bool
  deriving DecidableEq, Repr

/-- Embeds `runChecks()`: tool detection, then the memory scan, then the protected
value sweep — each unconditionally — raising an event for every positive
result and setting `criticalIssueDetected` on any of them.  Returns the
events raised, in order, and the `criticalIssueDetected` flag. -/
def runChecks (env : CycleEnv) : List CheatEvent × Bool :=
  let toolEvents :=
    if (detectCheatTools env.tools).1 then [CheatEvent.mk "tool_detected" "critical"] else []
  let memEvents :=
    if env.memoryTampered then [CheatEvent.mk "memory_tampering" "high"] else []
  let valEvents :=
    if env.valuesTampered then [CheatEvent.mk "value_tampering" "high"] else []
  (toolEvents ++ memEvents ++ valEvents,
   (detectCheatTools env.tools).1 || env.memoryTampered || env.valuesTampered)

/-- Embeds `start()`: a no-op when already running; otherwise one synchronous
`runChecks`, refusing to start when it set `criticalIssueDetected`, else
entering the running state.  Returns the source's boolean result together
with the resulting `isRunning` flag. -/
def start (isRunning : Bool) (env : CycleEnv) : Bool × Bool :=
  if isRunning then (true, true)
  else if (runChecks env).2 then (false, false)
  else (true, true)

/-! ## Theorems -/

/-- The sanitized severity is `"critical"` exactly when the supplied severity
is the string `"critical"`. -/
theorem sanitize_critical_iff (sev : Option String) :
    sanitizeSeverity sev = "critical" ↔ sev = some "critical" := by
  cases sev with
  | none =>
    constructor
    · intro h; exact absurd h (by decide)
    · intro h; cases h
  | some s =>
    simp only [sanitizeSeverity]
    split
    · constructor
      · intro h; rw [h]
      · intro h; injection h
    · next hmem =>
      constructor
      · intro h; exact absurd h (by decide)
      · intro h
        injection h with h2
        subst h2
        exact absurd (by decide : severityWhitelist.contains "critical" = true) hmem

/-- C3: A `POST /api/log-tampering` request with severity exactly
`"critical"` receives a 403 response with action `"ban"` on the very first
call and regardless of the player's prior `tamperingAttempts` counter;
any non-critical severity receives 200 with action `"warn"`. -/
theorem c3_critical_ban (body : TamperBody) (attempts : Nat) :
    (body.severity = some "critical" →
      (logTampering body attempts).1 = ⟨403, "ban"⟩) ∧
    (body.severity ≠ some "critical" →
      (logTampering body attempts).1 = ⟨200, "warn"⟩) ∧
    (∀ a b : Nat, (logTampering body a).1 = (logTampering body b).1) := by
  refine ⟨?_, ?_, ?_⟩
  · intro h
    have hs : sanitizeSeverity body.severity = "critical" :=
      (sanitize_critical_iff body.severity).mpr h
    simp [logTampering, hs]
  · intro h
    have hs : sanitizeSeverity body.severity ≠ "critical" :=
      fun hc => h ((sanitize_critical_iff body.severity).mp hc)
    simp [logTampering, hs]
  · intro a b
    by_cases hs : sanitizeSeverity body.severity = "critical" <;>
      simp [logTampering, hs]

/-- Witness for C3 at concrete inputs: a first-ever critical report is
banned, a low-severity report with a large prior counter is warned. -/
theorem c3_witness :
    (logTampering ⟨some "critical", some "p1"⟩ 0).1 = ⟨403, "ban"⟩ ∧
    (logTampering ⟨some "low", some "p1"⟩ 7).1 = ⟨200, "warn"⟩ :=
  ⟨(c3_critical_ban ⟨some "critical", some "p1"⟩ 0).1 rfl,
   (c3_critical_ban ⟨some "low", some "p1"⟩ 7).2.1 (by decide)⟩

/-- C10: On `/api/log-tampering`, a supplied severity outside
`{low, medium, high, critical}` (including an absent or non-string one) is
sanitized to `"unknown"` before storage, and the response is 403 with action
`"ban"` exactly when the supplied severity is the string `"critical"`;
every other severity yields 200 with action `"warn"`. -/
theorem c10_severity_sanitize (body : TamperBody) (attempts : Nat) :
    (∀ s, body.severity = some s → severityWhitelist.contains s = false →
      sanitizeSeverity body.severity = "unknown") ∧
    (body.severity = none → sanitizeSeverity body.severity = "unknown") ∧
    (((logTampering body attempts).1.status = 403 ∧
        (logTampering body attempts).1.action = "ban") ↔
      body.severity = some "critical") ∧
    (body.severity ≠ some "critical" →
      (logTampering body attempts).1.status = 200 ∧
      (logTampering body attempts).1.action = "warn") := by
  refine ⟨?_, ?_, ?_, ?_⟩
  · intro s hs hw
    rw [hs]
    simp only [sanitizeSeverity, hw]
    rfl
  · intro h
    rw [h]
    rfl
  · by_cases hs : sanitizeSeverity body.severity = "critical"
    · have hb := (sanitize_critical_iff body.severity).mp hs
      simp only [logTampering]
      rw [if_pos hs]
      simp [hb]
    · have hb : body.severity ≠ some "critical" :=
        fun hc => hs ((sanitize_critical_iff body.severity).mpr hc)
      simp only [logTampering]
      rw [if_neg hs]
      simp [hb]
  · intro h
    have hs : sanitizeSeverity body.severity ≠ "critical" :=
      fun hc => h ((sanitize_critical_iff body.severity).mp hc)
    simp only [logTampering]
    rw [if_neg hs]
    exact ⟨rfl, rfl⟩

/-- Witness for C10 at concrete inputs: the severity `"catastrophic"` is
sanitized to `"unknown"` and yields a 200/warn response. -/
theorem c10_witness :
    sanitizeSeverity (some "catastrophic") = "unknown" ∧
    (logTampering ⟨some "catastrophic", none⟩ 2).1.status = 200 ∧
    (logTampering ⟨some "catastrophic", none⟩ 2).1.action = "warn" :=
  ⟨(c10_severity_sanitize ⟨some "catastrophic", none⟩ 2).1 "catastrophic" rfl (by decide),
   (c10_severity_sanitize ⟨some "catastrophic", none⟩ 2).2.2.2 (by decide)⟩

/-- C5: within one cycle, `detectCheatTools` runs its detection variants in
the fixed order Tool (installed apps, then processes) > Memory (signature
scan) > Debugger > Emulator, its executed-check trace is the source-order
list cut at the first positive probe (so every executed check before the last
one was negative and nothing runs after a positive one), and it reports a
detection exactly when some executed check was positive. -/
theorem c5_detection_order (env : ToolProbeEnv) :
    (detectCheatTools env).2 = specTrace env ∧
    (∀ c ∈ (detectCheatTools env).2.dropLast, probeResult env c = false) ∧
    ((detectCheatTools env).1 = true ↔
      ∃ c ∈ (detectCheatTools env).2, probeResult env c = true) ∧
    (detectCheatTools env).2.map variantOf =
      [Variant.tool, .tool, .memory, .debuggerV, .emulatorV].take
        (specTrace env).length := by
  obtain ⟨a, b, c, d, e⟩ := env
  cases a <;> cases b <;> cases c <;> cases d <;> cases e <;> decide

/-- Witness for C5 at a concrete environment: with a positive process scan
the trace stops after the Tool variant, and the executed installed-app check
(the only non-final one) was negative. -/
theorem c5_witness :
    (detectCheatTools ⟨false, true, false, false, false⟩).2 = specTrace ⟨false, true, false, false, false⟩ ∧
    probeResult ⟨false, true, false, false, false⟩ SubCheck.apps = false ∧
    (detectCheatTools ⟨false, true, false, false, false⟩).1 = true :=
  ⟨(c5_detection_order ⟨false, true, false, false, false⟩).1,
   (c5_detection_order ⟨false, true, false, false, false⟩).2.1 SubCheck.apps (by decide),
   ((c5_detection_order ⟨false, true, false, false, false⟩).2.2.1).mpr
     ⟨SubCheck.processes, by decide, by decide⟩⟩

/-- A cycle environment in which only the memory scanner fires: the raised
event has severity `"high"`, not `"critical"`. -/
def c4CexEnv : CycleEnv := ⟨⟨false, false, false, false, false⟩, true, false⟩

/-- C4 counterexample: from the stopped state, with an initial check that is
positive only through memory tampering (an event of severity `"high"`, with
no `"critical"`-severity event raised), `start()` still returns `false` and
does not enter the running state — refuting that start fails exactly on a
positive check of critical confidence. -/
theorem c4_counterexample :
    (start false c4CexEnv).1 = false ∧
    (start false c4CexEnv).2 = false ∧
    (runChecks c4CexEnv).1 = [CheatEvent.mk "memory_tampering" "high"] ∧
    ((runChecks c4CexEnv).1.all (fun e => e.severity != "critical")) = true := by
  decide

/-! ### Identity and cloning lemmas for the `GameValue` model -/

mutual

/-- Shifting relabels exactly: the identities of a shifted tree are the
original identities shifted. -/
theorem idsT_shift (d : Nat) (t : JTree) :
    idsT (shiftIds d t) = (idsT t).map (fun i => i + d) := by
  cases t with
  | prim v => rfl
  | node i fs => simp [shiftIds, idsT, idsF_shift d fs]

/-- Lemma `idsT_shift` for field lists. -/
theorem idsF_shift (d : Nat) (fs : JFields) :
    idsF (shiftIdsF d fs) = (idsF fs).map (fun i => i + d) := by
  cases fs with
  | nil => rfl
  | cons k t rest => simp [shiftIdsF, idsF, idsT_shift d t, idsF_shift d rest]

end

mutual

/-- Cloning preserves the JSON content of a tree. -/
theorem eraseIds_shift (d : Nat) (t : JTree) :
    eraseIds (shiftIds d t) = eraseIds t := by
  cases t with
  | prim v => rfl
  | node i fs => simp [shiftIds, eraseIds, eraseIdsF_shift d fs]

/-- Lemma `eraseIds_shift` for field lists. -/
theorem eraseIdsF_shift (d : Nat) (fs : JFields) :
    eraseIdsF (shiftIdsF d fs) = eraseIdsF fs := by
  cases fs with
  | nil => rfl
  | cons k t rest => simp [shiftIdsF, eraseIdsF, eraseIds_shift d t, eraseIdsF_shift d rest]

end

mutual

/-- Serialization does not see object identities, so cloning preserves it. -/
theorem stringifyT_shift (d : Nat) (t : JTree) :
    stringifyT (shiftIds d t) = stringifyT t := by
  cases t with
  | prim v => rfl
  | node i fs => simp [shiftIds, stringifyT, stringifyF_shift d fs]

/-- Lemma `stringifyT_shift` for field lists. -/
theorem stringifyF_shift (d : Nat) (fs : JFields) :
    stringifyF (shiftIdsF d fs) = stringifyF fs := by
  cases fs with
  | nil => rfl
  | cons k t rest =>
    cases rest with
    | nil => simp [shiftIdsF, stringifyF, stringifyT_shift d t]
    | cons k2 t2 rest2 =>
      have hrec : stringifyF (JFields.cons k2 (shiftIds d t2) (shiftIdsF d rest2)) =
          stringifyF (JFields.cons k2 t2 rest2) :=
        stringifyF_shift d (JFields.cons k2 t2 rest2)
      simp [shiftIdsF, stringifyF, stringifyT_shift d t, hrec]

end

/-- The checksum is a function of the serialized content only, so cloning
preserves it. -/
theorem calculateChecksum_shift (d : Nat) (t : JTree) :
    calculateChecksum (shiftIds d t) = calculateChecksum t := by
  unfold calculateChecksum
  rw [stringifyT_shift]

mutual

/-- Every identity of a tree is below its bound. -/
theorem idsT_lt_boundT (t : JTree) : ∀ i ∈ idsT t, i < boundT t := by
  cases t with
  | prim v => intro i hi; cases hi
  | node j fs =>
    intro i hi
    rcases List.mem_cons.mp hi with h | h
    · subst h
      exact lt_of_lt_of_le (Nat.lt_succ_self i) (le_max_left _ _)
    · exact lt_of_lt_of_le (idsF_lt_boundF fs i h) (le_max_right _ _)

/-- Lemma `idsT_lt_boundT` for field lists. -/
theorem idsF_lt_boundF (fs : JFields) : ∀ i ∈ idsF fs, i < boundF fs := by
  cases fs with
  | nil => intro i hi; cases hi
  | cons k t rest =>
    intro i hi
    rcases List.mem_append.mp hi with h | h
    · exact lt_of_lt_of_le (idsT_lt_boundT t i h) (le_max_left _ _)
    · exact lt_of_lt_of_le (idsF_lt_boundF rest i h) (le_max_right _ _)

end

mutual

/-- An external write aimed at an identity that does not occur in a tree
leaves the tree unchanged. -/
theorem mutateT_notin (a : Nat) (k : String) (v : Int) (t : JTree)
    (h : a ∉ idsT t) : mutateT a k v t = t := by
  cases t with
  | prim x => rfl
  | node i fs =>
    have h1 : ¬ i = a := fun he => h (he ▸ List.mem_cons_self i (idsF fs))
    have h2 : a ∉ idsF fs := fun hm => h (List.mem_cons_of_mem i hm)
    simp [mutateT, h1, mutateF_notin a k v fs h2]

/-- Lemma `mutateT_notin` for field lists. -/
theorem mutateF_notin (a : Nat) (k : String) (v : Int) (fs : JFields)
    (h : a ∉ idsF fs) : mutateF a k v fs = fs := by
  cases fs with
  | nil => rfl
  | cons k2 t rest =>
    have h1 : a ∉ idsT t := fun hm => h (List.mem_append.mpr (Or.inl hm))
    have h2 : a ∉ idsF rest := fun hm => h (List.mem_append.mpr (Or.inr hm))
    simp [mutateF, mutateT_notin a k v t h1, mutateF_notin a k v rest h2]

end

/-- The allocation invariant — every identity of the stored current value is
below the allocation counter — holds for a freshly constructed container. -/
theorem create_bound_invariant (key : String) (v : JTree) (cb : Option Bool) (now : Int) :
    ∀ i ∈ idsT (GameValue.create key v cb now).currentValue,
      i < (GameValue.create key v cb now).fresh := by
  intro i hi
  have hc : (GameValue.create key v cb now).currentValue =
      shiftIds (boundT v + boundT v) v := rfl
  rw [hc, idsT_shift] at hi
  obtain ⟨j, hj, rfl⟩ := List.mem_map.mp hi
  have := idsT_lt_boundT v j hj
  show j + (boundT v + boundT v) < boundT v + boundT v + boundT v
  omega

/-- The allocation invariant is preserved by `set`. -/
theorem set_bound_invariant (s : GameValue) (v : JTree) (now : Int) :
    ∀ i ∈ idsT (s.set v now).currentValue, i < (s.set v now).fresh := by
  intro i hi
  have hc : (s.set v now).currentValue = shiftIds s.fresh v := rfl
  rw [hc, idsT_shift] at hi
  obtain ⟨j, hj, rfl⟩ := List.mem_map.mp hi
  have := idsT_lt_boundT v j hj
  show j + s.fresh < s.fresh + boundT v
  omega

/-- The allocation invariant is preserved by `get`. -/
theorem get_bound_invariant (s : GameValue) (now : Int)
    (h : ∀ i ∈ idsT s.currentValue, i < s.fresh) :
    ∀ i ∈ idsT (s.get now).2.currentValue, i < (s.get now).2.fresh :=
  fun i hi => lt_of_lt_of_le (h i hi) (Nat.le_add_right _ _)

/-- C7 (amended): for every container whose custom verification callback (if
any) does not return `false`, and every value `v`, immediately after `set(v)`
with no intervening external mutation, `get()` returns a value JSON-equal to
`v`, `verify()` returns `true`, and the stored checksum list is exactly the
checksum of the current value. -/
theorem c7_set_get_verify (s : GameValue) (v : JTree) (now now2 : Int)
    (hcb : s.verificationCallback ≠ some false) :
    eraseIds ((s.set v now).get now2).1 = eraseIds v ∧
    (s.set v now).verify = true ∧
    (s.set v now).checksums = [calculateChecksum (s.set v now).currentValue] := by
  refine ⟨?_, ?_, rfl⟩
  · show eraseIds (shiftIds (s.set v now).fresh (shiftIds s.fresh v)) = eraseIds v
    rw [eraseIds_shift, eraseIds_shift]
  · have hck : (s.set v now).isChecksumValid = true := by
      simp [GameValue.isChecksumValid, GameValue.set]
    have hcbs : (s.set v now).verificationCallback = s.verificationCallback := rfl
    unfold GameValue.verify
    rw [hck, hcbs]
    rcases hc : s.verificationCallback with _ | b
    · simp
    · cases b with
      | false => exact absurd hc hcb
      | true => simp

/-- A container constructed with a custom verification callback that returns
`false`. -/
def c7Bad : GameValue := GameValue.create "score" (.prim 0) (some false) 0

/-- C7 counterexample: on a container whose constructor-supplied verification
callback returns `false`, `set(5)` is followed by a `get()` that does return
5 and by a checksum list that does match the current value, yet `verify()`
returns `false` — refuting that `verify()` is `true` immediately after `set`
for every container. -/
theorem c7_counterexample :
    eraseIds ((c7Bad.set (.prim 5) 1).get 2).1 = eraseIds (.prim 5) ∧
    (c7Bad.set (.prim 5) 1).checksums =
      [calculateChecksum (c7Bad.set (.prim 5) 1).currentValue] ∧
    (c7Bad.set (.prim 5) 1).verify = false := by
  refine ⟨rfl, rfl, ?_⟩
  have hcbs : (c7Bad.set (.prim 5) 1).verificationCallback = some false := rfl
  unfold GameValue.verify
  rw [hcbs]
  cases hck : (c7Bad.set (.prim 5) 1).isChecksumValid <;> simp

/-- Witness for C7 (amended) on a callback-free container: after `set(7)`,
`get()` returns 7 and `verify()` is `true`. -/
theorem c7_witness :
    eraseIds (((GameValue.create "coins" (.prim 100) none 0).set (.prim 7) 1).get 2).1
      = eraseIds (.prim 7) ∧
    ((GameValue.create "coins" (.prim 100) none 0).set (.prim 7) 1).verify = true :=
  ⟨(c7_set_get_verify (GameValue.create "coins" (.prim 100) none 0) (.prim 7) 1 2
      (by decide)).1,
   (c7_set_get_verify (GameValue.create "coins" (.prim 100) none 0) (.prim 7) 1 2
      (by decide)).2.1⟩

/-- C9: `get()` returns a deep clone — for a container satisfying the
allocation invariant (which construction, `set` and `get` maintain), an
in-place mutation through any object identity of the value returned by
`get()` leaves the stored current value unchanged, hence also its checksum,
the result of `verify()`, and the JSON content of a subsequent `get()`. -/
theorem c9_get_clone_isolation (s : GameValue) (now now2 : Int) (a : Nat)
    (k : String) (nv : Int)
    (hinv : ∀ i ∈ idsT s.currentValue, i < s.fresh)
    (ha : a ∈ idsT (s.get now).1) :
    mutateT a k nv (s.get now).2.currentValue = (s.get now).2.currentValue ∧
    calculateChecksum (mutateT a k nv (s.get now).2.currentValue)
      = calculateChecksum (s.get now).2.currentValue ∧
    GameValue.verify
        { (s.get now).2 with
          currentValue := mutateT a k nv (s.get now).2.currentValue }
      = GameValue.verify (s.get now).2 ∧
    eraseIds (GameValue.get
        { (s.get now).2 with
          currentValue := mutateT a k nv (s.get now).2.currentValue } now2).1
      = eraseIds ((s.get now).2.get now2).1 := by
  have hret : (s.get now).1 = shiftIds s.fresh s.currentValue := rfl
  rw [hret, idsT_shift] at ha
  obtain ⟨j, hj, rfl⟩ := List.mem_map.mp ha
  have hnotin : j + s.fresh ∉ idsT s.currentValue := by
    intro hmem
    have := hinv (j + s.fresh) hmem
    omega
  have hmut : mutateT (j + s.fresh) k nv (s.get now).2.currentValue
      = (s.get now).2.currentValue := mutateT_notin _ k nv _ hnotin
  refine ⟨hmut, by rw [hmut], by rw [hmut], by rw [hmut]⟩

/-- Witness for C9: on a concrete one-field object container, writing field
`"hp"` through the identity returned by `get()` leaves the stored value
unchanged. -/
theorem c9_witness :
    mutateT 5 "hp" 0
        (((GameValue.create "obj" (.node 0 (.cons "hp" (.prim 100) .nil)) none 0).get
            3).2).currentValue
      = (((GameValue.create "obj" (.node 0 (.cons "hp" (.prim 100) .nil)) none 0).get
            3).2).currentValue :=
  (c9_get_clone_isolation
    (GameValue.create "obj" (.node 0 (.cons "hp" (.prim 100) .nil)) none 0)
    3 0 5 "hp" 0 (by decide) (by decide)).1

/-- C1: for a registered, non-banned player, an invalid sync increments
`tamperingAttempts` by 1; when the updated count reaches the configured
threshold the player is banned (with `banTimestamp` set) and the response is
the 403 ban response; below the threshold the response is the 200 invalid
response carrying the verifier's reason; and every sync for an already-banned
player is answered with 403 "Account suspended" and an unchanged record, for
arbitrary submitted values and timestamps (no value rule is consulted). -/
theorem c1_sync_escalation (cfg : DeployConfig) (p : PlayerRecord) (nv : NewValues)
    (ct : Option Int) (now : Int)
    (hban : p.isBanned = false)
    (hinv : (verifyGameValues cfg p nv ct now none).isValid = false) :
    (syncGameValues cfg p nv ct now).2.tamperingAttempts = p.tamperingAttempts + 1 ∧
    (cfg.maxTamperingAttempts ≤ p.tamperingAttempts + 1 →
      (syncGameValues cfg p nv ct now).1 = .banInvalid ∧
      (syncGameValues cfg p nv ct now).2.isBanned = true ∧
      (syncGameValues cfg p nv ct now).2.banTimestamp = some now) ∧
    (p.tamperingAttempts + 1 < cfg.maxTamperingAttempts →
      (syncGameValues cfg p nv ct now).1 =
        .warnInvalid (verifyGameValues cfg p nv ct now none).reason ∧
      (syncGameValues cfg p nv ct now).2.isBanned = false) ∧
    (∀ (q : PlayerRecord) (nv2 : NewValues) (ct2 : Option Int) (now2 : Int),
      q.isBanned = true → syncGameValues cfg q nv2 ct2 now2 = (.suspended, q)) := by
  refine ⟨?_, ?_, ?_, ?_⟩
  · by_cases hth : cfg.maxTamperingAttempts ≤ p.tamperingAttempts + 1 <;>
      simp [syncGameValues, hban, hinv, hth]
  · intro hth
    simp [syncGameValues, hban, hinv, hth]
  · intro hlt
    have hth : ¬ cfg.maxTamperingAttempts ≤ p.tamperingAttempts + 1 := by omega
    simp [syncGameValues, hban, hinv, hth]
  · intro q nv2 ct2 now2 hq
    simp [syncGameValues, hq]

/-- The fresh-but-flagged player of the spec scenario: stored
`{health: 100, maxHealth: 100, coins: 100}`, two prior tampering attempts. -/
def c1Player : PlayerRecord :=
  { gameData := { health := some 100, maxHealth := some 100, healthRegenRate := none,
                  coins := some 100, xp := none, others := [] }
    lastSync := 0
    tamperingAttempts := 2
    isBanned := false
    banTimestamp := none }

/-- The spec scenario's proposed values: `coins = 5100` one minute after the
last sync. -/
def c1Values : NewValues :=
  { health := none, coins := some 5100, xp := none, powerups := none }

/-- The concrete scenario sync (`coins: 100 → 5100` in one minute) is
rejected by the coins-rate rule. -/
theorem c1_verify_eval :
    verifyGameValues defaultConfig c1Player c1Values (some 60000) 60000 none =
      ⟨false, some .coinsTooFast⟩ := by
  norm_num [verifyGameValues, healthRule, coinsRule, c1Player, c1Values,
    defaultConfig, GameData.isEmpty, elapsedMinutes]

/-- Witness for C1: the third invalid sync of the scenario player bans and
returns the 403 ban response, and a sync against the banned record is
answered "Account suspended" unchanged. -/
theorem c1_witness :
    (verifyGameValues defaultConfig c1Player c1Values (some 60000) 60000 none).isValid
        = false ∧
    (syncGameValues defaultConfig c1Player c1Values (some 60000) 60000).2.tamperingAttempts
        = 3 ∧
    (syncGameValues defaultConfig c1Player c1Values (some 60000) 60000).1
        = .banInvalid ∧
    (syncGameValues defaultConfig c1Player c1Values (some 60000) 60000).2.isBanned
        = true ∧
    syncGameValues defaultConfig
        { c1Player with isBanned := true } c1Values (some 120000) 120000
      = (.suspended, { c1Player with isBanned := true }) := by
  have h := c1_sync_escalation defaultConfig c1Player c1Values (some 60000) 60000
    rfl (by rw [c1_verify_eval])
  exact ⟨by rw [c1_verify_eval], h.1, (h.2.1 (by decide)).1, (h.2.1 (by decide)).2.1,
    h.2.2.2 { c1Player with isBanned := true } c1Values (some 120000) 120000 rfl⟩

/-- C2: when stored and proposed coins are both present and no other rule
fires (health and xp are not proposed, the history is non-empty, the
timestamp parses and is not in the future), verification fails exactly when
the proposed coins exceed `storedCoins + maxCoinsPerMinute * elapsedMinutes`;
above the bound the reason is the coins-rate reason, and at or below the
bound the sync verifies as valid (the boundary itself is accepted). -/
theorem c2_coins_boundary (cfg : DeployConfig) (p : PlayerRecord) (nv : NewValues)
    (t now : Int) (c c0 : ℚ)
    (hne : p.gameData.isEmpty = false)
    (hfut : t ≤ now + 5 * 60 * 1000)
    (hh : nv.health = none)
    (hx : nv.xp = none)
    (hc : nv.coins = some c)
    (hc0 : p.gameData.coins = some c0) :
    ((verifyGameValues cfg p nv (some t) now none).isValid = false ↔
      c0 + cfg.maxCoinsPerMinute * elapsedMinutes t p.lastSync < c) ∧
    (c0 + cfg.maxCoinsPerMinute * elapsedMinutes t p.lastSync < c →
      (verifyGameValues cfg p nv (some t) now none).reason = some .coinsTooFast) ∧
    (c ≤ c0 + cfg.maxCoinsPerMinute * elapsedMinutes t p.lastSync →
      verifyGameValues cfg p nv (some t) now none = ⟨true, none⟩) := by
  have hfut' : t ≤ now + 300000 := by omega
  have hhr : healthRule p.gameData nv (elapsedMinutes t p.lastSync) = none := by
    simp [healthRule, hh]
  have hxr : xpRule cfg p.gameData nv (elapsedMinutes t p.lastSync) = none := by
    simp [xpRule, hx]
  by_cases hcmp : c0 + cfg.maxCoinsPerMinute * elapsedMinutes t p.lastSync < c
  · have hcr : coinsRule cfg p.gameData nv (elapsedMinutes t p.lastSync) =
        some ⟨false, some .coinsTooFast⟩ := by
      simp [coinsRule, hc, hc0, hcmp]
    have hv : verifyGameValues cfg p nv (some t) now none =
        ⟨false, some .coinsTooFast⟩ := by
      simp [verifyGameValues, hne, hfut', hhr, hcr]
    rw [hv]
    refine ⟨⟨fun _ => hcmp, fun _ => rfl⟩, fun _ => rfl,
      fun hle => absurd hcmp (not_lt.mpr hle)⟩
  · have hcr : coinsRule cfg p.gameData nv (elapsedMinutes t p.lastSync) = none := by
      simp [coinsRule, hc, hc0, hcmp]
    have hv : verifyGameValues cfg p nv (some t) now none = ⟨true, none⟩ := by
      simp [verifyGameValues, hne, hfut', hhr, hcr, hxr]
    rw [hv]
    refine ⟨⟨fun hfalse => absurd hfalse (by decide), fun hlt => absurd hlt hcmp⟩,
      fun hlt => absurd hlt hcmp, fun _ => rfl⟩

/-- Witness for C2 at the spec's concrete scenario (`coins: 100 → 5100` in
one minute against the default 1000/min bound), and acceptance exactly at the
boundary (`coins: 100 → 1100`). -/
theorem c2_witness :
    ((verifyGameValues defaultConfig c1Player c1Values (some 60000) 60000 none).isValid
        = false ↔
      (100 : ℚ) + defaultConfig.maxCoinsPerMinute * elapsedMinutes 60000 c1Player.lastSync
        < 5100) ∧
    (verifyGameValues defaultConfig c1Player c1Values (some 60000) 60000 none).reason
        = some .coinsTooFast ∧
    verifyGameValues defaultConfig c1Player
        { health := none, coins := some 1100, xp := none, powerups := none }
        (some 60000) 60000 none
      = ⟨true, none⟩ := by
  have ha := c2_coins_boundary defaultConfig c1Player c1Values 60000 60000 5100 100
    (by norm_num [c1Player, GameData.isEmpty]) (by norm_num) rfl rfl rfl rfl
  have hb := c2_coins_boundary defaultConfig c1Player
    { health := none, coins := some 1100, xp := none, powerups := none }
    60000 60000 1100 100 (by norm_num [c1Player, GameData.isEmpty]) (by norm_num)
    rfl rfl rfl rfl
  exact ⟨ha.1, ha.2.1 (by norm_num [defaultConfig, c1Player, elapsedMinutes]),
    hb.2.2 (by norm_num [defaultConfig, c1Player, elapsedMinutes])⟩

/-- C6 (amended): when the history is non-empty, the timestamp parses and is
not in the future, stored health `h0` is strictly below the effective
`maxHealth`, the proposed health `h` does not exceed that maximum (so the cap
rule does not fire first), `h` is an increase over `h0`, `h` exceeds
`h0 + healthRegenRate * elapsedMinutes`, and no `"health"` powerup is
declared, the verifier rejects the sync with the regeneration-rate reason. -/
theorem c6_regen_amended (cfg : DeployConfig) (p : PlayerRecord) (nv : NewValues)
    (t now : Int) (h h0 : ℚ)
    (hne : p.gameData.isEmpty = false)
    (hfut : t ≤ now + 5 * 60 * 1000)
    (hh : nv.health = some h)
    (hh0 : p.gameData.health = some h0)
    (hmax : h0 < jsNumOr p.gameData.maxHealth 100)
    (hcap : h ≤ jsNumOr p.gameData.maxHealth 100)
    (hinc : h0 < h)
    (hrate : h0 + jsNumOr p.gameData.healthRegenRate 5 * elapsedMinutes t p.lastSync < h)
    (hpw : hasHealthPowerup nv = false) :
    verifyGameValues cfg p nv (some t) now none =
      ⟨false, some .healthRegenTooFast⟩ := by
  have hfut' : t ≤ now + 300000 := by omega
  have hcap' : ¬ (jsNumOr p.gameData.maxHealth 100 < h ∧ hasHealthPowerup nv = false) :=
    fun hcontr => absurd hcontr.1 (not_lt.mpr hcap)
  have hhr : healthRule p.gameData nv (elapsedMinutes t p.lastSync) =
      some ⟨false, some .healthRegenTooFast⟩ := by
    simp only [healthRule, hh, hh0]
    rw [if_neg hcap', if_pos ⟨hinc, hmax, hrate, hpw⟩]
  simp [verifyGameValues, hne, hfut', hhr]

/-- A player at 50 of 100 health with no stored regeneration rate. -/
def c6Player : PlayerRecord :=
  { gameData := { health := some 50, maxHealth := some 100, healthRegenRate := none,
                  coins := none, xp := none, others := [] }
    lastSync := 0
    tamperingAttempts := 0
    isBanned := false
    banTimestamp := none }

/-- Proposed health 200 with no powerup, immediately after the last sync. -/
def c6Values : NewValues :=
  { health := some 200, coins := none, xp := none, powerups := none }

/-- C6 counterexample: at an input satisfying every premise of the claim
(stored health 50 below the maximum 100, proposed health 200 above
`50 + healthRegenRate * elapsedMinutes = 50`, no powerup declared), the
verifier rejects with the health-cap reason, not a regeneration-rate
reason — the cap rule fires first whenever the proposal also exceeds the
maximum. -/
theorem c6_counterexample :
    c6Player.gameData.health = some 50 ∧
    (50 : ℚ) < jsNumOr c6Player.gameData.maxHealth 100 ∧
    c6Values.health = some 200 ∧
    (50 : ℚ) + jsNumOr c6Player.gameData.healthRegenRate 5 *
        elapsedMinutes 0 c6Player.lastSync < 200 ∧
    hasHealthPowerup c6Values = false ∧
    verifyGameValues defaultConfig c6Player c6Values (some 0) 0 none =
      ⟨false, some .healthExceedsMax⟩ ∧
    (VerifyReason.healthExceedsMax == VerifyReason.healthRegenTooFast) = false := by
  refine ⟨rfl, by norm_num [c6Player, jsNumOr], rfl,
    by norm_num [c6Player, jsNumOr, elapsedMinutes], rfl, ?_, by decide⟩
  norm_num [verifyGameValues, healthRule, c6Player, c6Values, defaultConfig,
    GameData.isEmpty, elapsedMinutes, jsNumOr, hasHealthPowerup]

/-- Witness for C6 (amended): proposed health 100 (at the cap, not above it)
one minute after the last sync exceeds `50 + 5 * 1` and is rejected with the
regeneration-rate reason. -/
theorem c6_witness :
    verifyGameValues defaultConfig c6Player
        { health := some 100, coins := none, xp := none, powerups := none }
        (some 60000) 60000 none
      = ⟨false, some .healthRegenTooFast⟩ :=
  c6_regen_amended defaultConfig c6Player
    { health := some 100, coins := none, xp := none, powerups := none }
    60000 60000 100 50
    (by norm_num [c6Player, GameData.isEmpty]) (by norm_num) rfl rfl
    (by norm_num [c6Player, jsNumOr]) (by norm_num [c6Player, jsNumOr])
    (by norm_num)
    (by norm_num [c6Player, jsNumOr, elapsedMinutes]) rfl

/-- C8: the server-side verification is a pure function of the player record,
the proposed values and the timestamps — its result does not depend on the
declared checksum — and the sync handler leaves the record untouched wherever
the verifier is not the trigger: a banned record is returned unchanged, a
valid result changes neither `tamperingAttempts` nor the ban fields, and an
invalid result changes neither `gameData` nor `lastSync` (record mutation
happens only in the caller, and the escalation part only on invalid
results). -/
theorem c8_verify_frame (cfg : DeployConfig) (p : PlayerRecord) (nv : NewValues)
    (ct : Option Int) (now : Int) :
    (∀ cs1 cs2 : Option String,
      verifyGameValues cfg p nv ct now cs1 = verifyGameValues cfg p nv ct now cs2) ∧
    (p.isBanned = true → (syncGameValues cfg p nv ct now).2 = p) ∧
    ((verifyGameValues cfg p nv ct now none).isValid = true → p.isBanned = false →
      (syncGameValues cfg p nv ct now).2.tamperingAttempts = p.tamperingAttempts ∧
      (syncGameValues cfg p nv ct now).2.isBanned = p.isBanned ∧
      (syncGameValues cfg p nv ct now).2.banTimestamp = p.banTimestamp) ∧
    ((verifyGameValues cfg p nv ct now none).isValid = false →
      (syncGameValues cfg p nv ct now).2.gameData = p.gameData ∧
      (syncGameValues cfg p nv ct now).2.lastSync = p.lastSync) := by
  refine ⟨fun cs1 cs2 => rfl, ?_, ?_, ?_⟩
  · intro hq
    simp [syncGameValues, hq]
  · intro hv hb
    simp [syncGameValues, hb, hv]
  · intro hv
    by_cases hb : p.isBanned
    · simp [syncGameValues, hb]
    · have hb' : p.isBanned = false := by simpa using hb
      by_cases hth : cfg.maxTamperingAttempts ≤ p.tamperingAttempts + 1 <;>
        simp [syncGameValues, hb', hv, hth]

/-- A valid concrete sync: coins 100 → 500 in one minute is within the
default 1000/min bound. -/
theorem c8_verify_eval :
    verifyGameValues defaultConfig c1Player
        { health := none, coins := some 500, xp := none, powerups := none }
        (some 60000) 60000 none
      = ⟨true, none⟩ := by
  norm_num [verifyGameValues, healthRule, coinsRule, xpRule, c1Player,
    defaultConfig, GameData.isEmpty, elapsedMinutes]

/-- Witness for C8: a valid sync (coins 100 → 500 in one minute) leaves the
counter and ban state of the concrete scenario player unchanged. -/
theorem c8_witness :
    (verifyGameValues defaultConfig c1Player
        { health := none, coins := some 500, xp := none, powerups := none }
        (some 60000) 60000 none).isValid = true ∧
    (syncGameValues defaultConfig c1Player
        { health := none, coins := some 500, xp := none, powerups := none }
        (some 60000) 60000).2.tamperingAttempts = c1Player.tamperingAttempts ∧
    (syncGameValues defaultConfig c1Player
        { health := none, coins := some 500, xp := none, powerups := none }
        (some 60000) 60000).2.isBanned = c1Player.isBanned := by
  have h := c8_verify_frame defaultConfig c1Player
    { health := none, coins := some 500, xp := none, powerups := none }
    (some 60000) 60000
  exact ⟨by rw [c8_verify_eval], (h.2.2.1 (by rw [c8_verify_eval]) rfl).1,
    (h.2.2.1 (by rw [c8_verify_eval]) rfl).2.1⟩

/-- C4 (amended): from the stopped state, `start()` runs one check
synchronously and returns `false` without entering the running state exactly
when that check detected any issue — `criticalIssueDetected` is set by every
positive detection (tool, memory-tampering or value-tampering) regardless of
the raised event's severity; otherwise it enters the running state and
returns `true`. -/
theorem c4_start_amended (env : CycleEnv) :
    start false env =
      (if (runChecks env).2 then (false, false) else (true, true)) ∧
    (runChecks env).2 =
      ((detectCheatTools env.tools).1 || env.memoryTampered || env.valuesTampered) := by
  constructor
  · by_cases h : (runChecks env).2 <;> simp [start, h]
  · rfl

end GG
